import Mathlib

/-!
Shallow embedding of the command-dispatch engine of MyLib (command.py):
the grammar compiler (_Part.__init__), the token matcher (_Part.match),
the alignment/confidence matcher (_Wrapper.__call__, _Wrapper._log_exception)
and the top-level dispatcher (resolve).  Python strings are Lean `String`,
Python ints are `Int`, exceptions become `Except`/explicit error values, and
the mutable per-wrapper attributes (_first_exception, _badness) become an
explicit state record threaded through the functions.
-/

namespace MyLib

/-- The constant _INITIAL_BADNESS from command.py. -/
def INITIAL_BADNESS : Int := 10000

/-- Split a list of characters at every occurrence of the separator, keeping
empty fragments, like the Python expression string.split(sep) for a one
character separator. -/
def splitCh (sep : Char) : List Char → List (List Char)
  | [] => [[]]
  | c :: cs =>
    let r := splitCh sep cs
    if c = sep then [] :: r
    else
      match r with
      | h :: t => (c :: h) :: t
      | [] => [[c]]

/-- The Python expression string.split(sep) for a one character separator. -/
def pySplitOn (sep : Char) (s : String) : List String :=
  (splitCh sep s.toList).map (fun l => String.mk l)

/-- The Python expression string.split() (split on whitespace, dropping empty
fragments), for inputs whose only whitespace is the space character. -/
def pySplit (s : String) : List String :=
  (pySplitOn ' ' s).filter (fun t => t ≠ "")

/-- The Python expression string[1:-1]: drop the first and last character. -/
def strip1 (s : String) : String :=
  String.mk ((s.toList.drop 1).dropLast)

/-- Embedding of _Part._enclosed: the string is nonempty, its first character
is a and its last character is b. -/
def enclosed (s : String) (a b : Char) : Bool :=
  match s.toList with
  | [] => false
  | c :: cs => c = a && List.getLastD cs c = b

/-- Embedding of _Argument: a string value together with the name of the free
slot it was captured by (none for literal matches and for the empty value). -/
structure Argument where
  val : String
  name : Option String
deriving DecidableEq, Repr

/-- Embedding of _Part: one whitespace-delimited grammar unit.  The field str
keeps the original source text (Python self._str), mandatory is the absence of
enclosing square brackets, options are the hard-coded literal alternatives and
free_name is the name of the free slot, the empty string meaning that there is
none (Python uses the empty string the same way). -/
structure Part where
  str : String
  mandatory : Bool
  options : List String
  free_name : String
deriving DecidableEq, Repr

/-- Embedding of _Part.__init__: compile one grammar token.  A token enclosed
in square brackets is optional and the brackets are stripped; the remainder is
split on the bar character; an alternative enclosed in angle brackets is
excluded from the literal options and the first such alternative (while
free_name is still empty) sets free_name to its inner text. -/
def Part.ofString (part0 : String) : Part :=
  let mand := !enclosed part0 '[' ']'
  let inner := if mand then part0 else strip1 part0
  let step : List String × String → String → List String × String :=
    fun st option =>
      if enclosed option '<' '>' then
        (st.1, if st.2 = "" then strip1 option else st.2)
      else (st.1 ++ [option], st.2)
  let os := (pySplitOn '|' inner).foldl step ([], "")
  ⟨part0, mand, os.1, os.2⟩

/-- Embedding of the _ParsingError hierarchy as a tagged variant.  Each
constructor keeps the payload its Python class stores; the mutable badness
attribute lives outside, in the wrapper state. -/
inductive PError where
  | invalidOption (part : Part) (value : String)
  | missingMandatory (part : Part)
  | redundant (value : String)
  | invalidSyntaxErr (argument : Argument) (reason : String)
  | invalidArgValue (argument : Argument) (reason : String)
  | invalidCommandValue (command : Argument) (reason : String)
deriving DecidableEq, Repr

/-- The base badness each _ParsingError subclass passes to its superclass
constructor in command.py. -/
def PError.base : PError → Int
  | .invalidOption _ _ => 3
  | .missingMandatory _ => 4
  | .redundant _ => 4
  | .invalidSyntaxErr _ _ => 4
  | .invalidArgValue _ _ => 1
  | .invalidCommandValue _ _ => 2

/-- Embedding of _Part.match: return the string used as argument to the
handler if parseable, else the _InvalidOption error. -/
def Part.matchTok (p : Part) (user_part : String) : Except PError Argument :=
  if user_part ∈ p.options then .ok ⟨user_part, none⟩
  else if p.free_name ≠ "" ∧ user_part ≠ "" then .ok ⟨user_part, some p.free_name⟩
  else if p.mandatory = false then .ok ⟨"", none⟩
  else .error (.invalidOption p user_part)

/-- The errors a handler may raise across the module boundary: the exported
exception classes InvalidSyntax, InvalidArgValue and InvalidCommandValue. -/
inductive HError where
  | invalidSyntaxErr (argument : Argument) (reason : String)
  | invalidArgValue (argument : Argument) (reason : String)
  | invalidCommandValue (command : Argument) (reason : String)
deriving DecidableEq, Repr

/-- View a handler-raised error as a _ParsingError. -/
def HError.toPError : HError → PError
  | .invalidSyntaxErr a r => .invalidSyntaxErr a r
  | .invalidArgValue a r => .invalidArgValue a r
  | .invalidCommandValue a r => .invalidCommandValue a r

/-- Embedding of _Wrapper._log_exception acting on the _first_exception slot:
save the first exception (with its base badness), but update the saved badness
to the maximum of the base badnesses of all logged exceptions. -/
def logExc1 (fe : Option (PError × Int)) (e : PError) : Option (PError × Int) :=
  match fe with
  | none => some (e, e.base)
  | some (f, b) => some (f, max b e.base)

/-- The per-wrapper mutable attributes of _Wrapper: _first_exception (paired
with its current badness) and _badness. -/
structure WState where
  firstExc : Option (PError × Int)
  badness : Int
deriving DecidableEq, Repr

/-- The state _Wrapper.__init__ creates: no exception, badness equal to
_INITIAL_BADNESS. -/
def initW : WState := ⟨none, INITIAL_BADNESS⟩

/-- Result state of the argument walk inside _Wrapper.__call__. -/
structure WalkRes where
  resolved : List Argument
  fe : Option (PError × Int)
  badness : Int
  buf : Option String
  rest : List String
deriving DecidableEq, Repr

/-- Embedding of the for-loop over self._args in _Wrapper.__call__: walk the
argument Parts while advancing a one-token lookahead buffer over the user
arguments.  buf is the Python variable user_arg, rest the not yet pulled
suffix of user_args. -/
def walk : List Part → Option String → List String → List Argument →
    Option (PError × Int) → Int → WalkRes
  | [], buf, rest, acc, fe, bad => ⟨acc, fe, bad, buf, rest⟩
  | part :: parts, buf0, rest0, acc, fe, bad =>
    let pulled : Option String × List String :=
      match buf0, rest0 with
      | none, t :: ts => (some t, ts)
      | b, r => (b, r)
    if pulled.1 = none ∧ part.mandatory then
      ⟨acc, logExc1 fe (.missingMandatory part), bad, pulled.1, pulled.2⟩
    else
      match part.matchTok (pulled.1.getD "") with
      | .error e => walk parts none pulled.2 acc (logExc1 fe e) bad
      | .ok a =>
        if a.val ≠ "" then
          walk parts none pulled.2 (acc ++ [a]) fe (bad - 1)
        else
          walk parts pulled.1 pulled.2 (acc ++ [a]) fe bad

/-- The three possible outcomes of _Wrapper.__call__: return False (the
command token did not match), return True (carrying the resolved argument list
the handler was invoked with), or raise a _ParsingError with its final
confidence-adjusted badness. -/
inductive AttemptResult where
  | noMatch
  | success (resolved : List Argument)
  | failure (e : PError) (badness : Int)
deriving DecidableEq, Repr

/-- Embedding of _Wrapper restricted to what matching needs: the command Part,
the argument Parts and the bound handler.  A handler receives the resolved
arguments and either returns normally or raises one of the exported
_ParsingError subclasses. -/
structure Wrapper where
  command : Part
  args : List Part
  handler : List Argument → Option HError

/-- Embedding of _Wrapper.__call__.  The steps mirror the source: reset
_first_exception, match the command Part (returning noMatch on failure), seed
the resolved list when the command carries information, subtract 3 from the
badness on a literal alias hit, walk the argument Parts, log a _Redundant
error for a leftover buffered or unconsumed token, run the handler when no
error was logged, and finally raise the first logged error with the running
badness added, or return the success. -/
def Wrapper.call (w : Wrapper) (st : WState) (user_command : String)
    (user_args : List String) : AttemptResult × WState :=
  let fe0 : Option (PError × Int) := none
  match w.command.matchTok user_command with
  | .error _ => (.noMatch, ⟨fe0, st.badness⟩)
  | .ok resolved_command =>
    let resolved0 : List Argument :=
      if w.command.free_name ≠ "" || !w.command.mandatory
      then [resolved_command] else []
    let bad0 : Int :=
      if user_command ∈ w.command.options then st.badness - 3 else st.badness
    let r := walk w.args none user_args resolved0 fe0 bad0
    let fe1 :=
      match r.buf with
      | some v => logExc1 r.fe (.redundant v)
      | none =>
        match r.rest with
        | t :: _ => logExc1 r.fe (.redundant t)
        | [] => r.fe
    let fe2 :=
      match fe1 with
      | none =>
        match w.handler r.resolved with
        | some e => logExc1 none e.toPError
        | none => none
      | some x => some x
    match fe2 with
    | some (e, b) =>
      (.failure e (b + r.badness), ⟨some (e, b + r.badness), r.badness⟩)
    | none => (.success r.resolved, ⟨none, r.badness⟩)

/-- Embedding of Command.__init__ restricted to the syntax: split the string
on whitespace, the first token compiles to the command Part and the rest to
the argument Parts; the empty split (Python raises and catches ValueError)
yields the empty command Part and no argument Parts. -/
def cmdParse (stx : String) : Part × List Part :=
  match pySplit stx with
  | [] => (Part.ofString "", [])
  | c :: rest => (Part.ofString c, rest.map Part.ofString)

/-- A handler that returns normally on every input. -/
def hNone : List Argument → Option HError := fun _ => none

/-- Build the wrapper a decorated handler compiles to, from its syntax string
and the handler. -/
def mkWrapper (stx : String) (h : List Argument → Option HError) : Wrapper :=
  ⟨(cmdParse stx).1, (cmdParse stx).2, h⟩

/-- Embedding of the tokenization step of resolve: user_input.split() or
the one element list holding the empty string. -/
def tokenize (s : String) : List String :=
  let l := pySplit s
  if l = [] then [""] else l

/-- Embedding of the candidate loop in resolve.__new__: try every wrapper in
declared order with its own state; stop at the first success (returning its
index and the resolved arguments its handler received), collect raised errors
in order, and thread the updated per-wrapper states. -/
def dispatchLoop : List (Wrapper × WState) → String → List String →
    Option (Nat × List Argument) × List (PError × Int) × List (Wrapper × WState)
  | [], _, _ => (none, [], [])
  | (w, s) :: rest, cmd, args =>
    match Wrapper.call w s cmd args with
    | (.success res, s') => (some (0, res), [], (w, s') :: rest)
    | (.failure e b, s') =>
      let r := dispatchLoop rest cmd args
      (r.1.map (fun p => (p.1 + 1, p.2)), (e, b) :: r.2.1, (w, s') :: r.2.2)
    | (.noMatch, s') =>
      let r := dispatchLoop rest cmd args
      (r.1.map (fun p => (p.1 + 1, p.2)), r.2.1, (w, s') :: r.2.2)

/-- The single quote character, used by the diagnostic messages. -/
def sq : String := String.singleton (Char.ofNat 39)

/-- Quote a string the way the f-strings of command.py do. -/
def quoted (s : String) : String := sq ++ s ++ sq

/-- The message each _ParsingError subclass constructs in command.py. -/
def PError.message : PError → String
  | .invalidOption p v =>
    "Invalid option " ++ quoted v ++ ", must be one of " ++ quoted p.str
  | .missingMandatory p => "Missing mandatory argument " ++ quoted p.str
  | .redundant v => "Redundant argument " ++ quoted v
  | .invalidSyntaxErr a r =>
    "Invalid syntax at " ++ quoted a.val ++ (if r = "" then "" else ": " ++ r)
  | .invalidArgValue a r =>
    "Invalid value " ++ quoted a.val ++ " of argument "
      ++ quoted (a.name.getD "None") ++ (if r = "" then "" else ": " ++ r)
  | .invalidCommandValue a r =>
    "Invalid value " ++ quoted a.val ++ " of command "
      ++ quoted (a.name.getD "None") ++ (if r = "" then "" else ": " ++ r)

/-- Stable insertion of an error into a list sorted by ascending badness,
placing it after the entries of equal badness, like Python list.sort. -/
def insertByBadness (e : PError × Int) : List (PError × Int) → List (PError × Int)
  | [] => [e]
  | x :: xs => if e.2 < x.2 then e :: x :: xs else x :: insertByBadness e xs

/-- Stable sort by ascending badness, like exceptions.sort(key=badness). -/
def sortByBadness (l : List (PError × Int)) : List (PError × Int) :=
  l.foldr insertByBadness []

/-- Keep the first entry for every distinct message, like the duplicate
removal loop in resolve._print_exceptions. -/
def dedupByMessage : List (PError × Int) → List String → List (PError × Int)
  | [], _ => []
  | x :: xs, seen =>
    if seen.contains x.1.message then dedupByMessage xs seen
    else x :: dedupByMessage xs (x.1.message :: seen)

/-- Embedding of resolve._print_exceptions as the text it writes: sort by
ascending badness, deduplicate messages, indent when more than one remains,
join with an or separator and finish with a full stop. -/
def printExceptionsOut (l : List (PError × Int)) : List String :=
  let d := dedupByMessage (sortByBadness l) []
  [(if d.length > 1 then "    " else "")
    ++ String.intercalate "\nor  " (d.map (fun x => x.1.message))
    ++ ".\n\n"]

/-- Embedding of resolve.__new__, with the class attribute _help_search made
an explicit argument and the printed lines, the updated registry and the
final value of the flag returned.  The fuel argument only bounds the recursion
depth: the value none means the recursion would have needed more nesting than
the fuel allows, and is proven unreachable for fuel two. -/
def resolveF : Nat → Bool → List (Wrapper × WState) → String →
    Option (List String × List (Wrapper × WState) × Bool)
  | 0, _, _, _ => none
  | fuel + 1, hs, reg, input =>
    let ul := tokenize input
    let d := dispatchLoop reg (ul.headD "") ul.tail
    if (d.1.isSome : Bool) then some ([], d.2.2, hs)
    else if d.2.1 ≠ [] then
      if hs then some (["No additional help found."], d.2.2, hs)
      else
        match resolveF fuel true d.2.2 "help" with
        | none => none
        | some (p, reg', _) => some (printExceptionsOut d.2.1 ++ p, reg', false)
    else if hs then some (["No additional help found."], d.2.2, hs)
    else
      let pre : List String :=
        if ul.headD "" ≠ "" then ["Unknown command " ++ ul.headD "" ++ ".", ""]
        else []
      match resolveF fuel true d.2.2 "help" with
      | none => none
      | some (p, reg', _) => some (pre ++ p, reg', false)

/-- Ghost recomputation of the argument walk: the resolved values appended,
the errors logged in chronological order, the number of tokens consumed by a
nonempty match (the badness decrements), and the final lookahead buffer and
token suffix.  It branches exactly as walk does; walk_eq_ghost proves the
correspondence. -/
structure WalkGhost where
  resolved : List Argument
  logged : List PError
  consumed : Nat
  buf : Option String
  rest : List String
deriving DecidableEq, Repr

/-- The ghost walk over the argument Parts. -/
def walkG : List Part → Option String → List String → WalkGhost
  | [], buf, rest => ⟨[], [], 0, buf, rest⟩
  | part :: parts, buf0, rest0 =>
    let pulled : Option String × List String :=
      match buf0, rest0 with
      | none, t :: ts => (some t, ts)
      | b, r => (b, r)
    if pulled.1 = none ∧ part.mandatory then
      ⟨[], [.missingMandatory part], 0, pulled.1, pulled.2⟩
    else
      match part.matchTok (pulled.1.getD "") with
      | .error e =>
        let g := walkG parts none pulled.2
        ⟨g.resolved, e :: g.logged, g.consumed, g.buf, g.rest⟩
      | .ok a =>
        if a.val ≠ "" then
          let g := walkG parts none pulled.2
          ⟨a :: g.resolved, g.logged, g.consumed + 1, g.buf, g.rest⟩
        else
          let g := walkG parts pulled.1 pulled.2
          ⟨a :: g.resolved, g.logged, g.consumed, g.buf, g.rest⟩

/-- The list that seeds the resolved arguments: the value of the command Part
exactly when it carries information (a free slot exists or the Part is
optional). -/
def seedArgs (w : Wrapper) (c : Argument) : List Argument :=
  if w.command.free_name ≠ "" || !w.command.mandatory then [c] else []

/-- The structural errors one attempt logs, in chronological order: the walk
errors followed by the at most one _Redundant error for the first leftover
token. -/
def structuralLogged (w : Wrapper) (args : List String) : List PError :=
  let g := walkG w.args none args
  g.logged ++
    (match g.buf with
     | some v => [.redundant v]
     | none =>
       match g.rest with
       | t :: _ => [.redundant t]
       | [] => [])

/-- All errors one candidate attempt logs, in chronological order: the
structural errors if any, otherwise the error the handler raises, if any. -/
def attemptLogged (w : Wrapper) (c : Argument) (args : List String) : List PError :=
  match structuralLogged w args with
  | [] =>
    (match w.handler (seedArgs w c ++ (walkG w.args none args).resolved) with
     | some e => [e.toPError]
     | none => [])
  | e :: es => e :: es

/-- The running badness at the end of one candidate attempt: the starting
badness minus 3 for a literal alias hit on the command token, minus 1 for
every argument token consumed by a nonempty match. -/
def finalBadness (w : Wrapper) (b0 : Int) (cmd : String) (args : List String) : Int :=
  b0 - (if cmd ∈ w.command.options then 3 else 0)
    - (walkG w.args none args).consumed

/-- The maximum of the base badnesses of a list of errors (zero for the empty
list; every base is positive). -/
def maxBases (l : List PError) : Int :=
  l.foldl (fun b e => max b e.base) 0

/-- Recognize the _Redundant variant. -/
def PError.isRedundant : PError → Bool
  | .redundant _ => true
  | _ => false

/-- The first surplus token after the walk: the buffered one if the buffer is
full, else the first not yet pulled one. -/
def firstSurplus (g : WalkGhost) : Option String :=
  match g.buf with
  | some v => some v
  | none => g.rest.head?

/-- Number of tokens a lookahead buffer holds. -/
def bufN : Option String → Nat
  | some _ => 1
  | none => 0

/-- Every base badness is at most 4. -/
theorem base_le_four (e : PError) : e.base ≤ 4 := by
  cases e <;> simp [PError.base]

/-- Every base badness is at least 1. -/
theorem base_pos (e : PError) : 1 ≤ e.base := by
  cases e <;> simp [PError.base]

/-- Folding the error logger from a saved first exception keeps the first
exception and folds the maximum of the bases into its badness. -/
theorem logFold_some (l : List PError) : ∀ (f : PError) (b : Int),
    l.foldl logExc1 (some (f, b)) = some (f, l.foldl (fun b e => max b e.base) b) := by
  induction l with
  | nil => intro f b; rfl
  | cons e es ih => intro f b; simp only [List.foldl_cons, logExc1, ih]

/-- Folding the error logger from the empty slot over a nonempty chronological
list saves the head as the first exception and the maximum base as its
badness. -/
theorem logFold_none (hd : PError) (tl : List PError) :
    (hd :: tl).foldl logExc1 none = some (hd, maxBases (hd :: tl)) := by
  have h0 : max (0 : Int) hd.base = hd.base :=
    max_eq_right (le_trans zero_le_one (base_pos hd))
  simp only [List.foldl_cons, logExc1, logFold_some, maxBases, h0]

/-- The argument walk equals its ghost recomputation: the resolved values are
appended to the accumulator, the logged errors are folded into the first
exception slot, the badness drops by the number of consumed tokens, and the
buffer and token suffix agree. -/
theorem walk_eq_ghost (parts : List Part) : ∀ (buf : Option String)
    (rest : List String) (acc : List Argument) (fe : Option (PError × Int))
    (bad : Int),
    walk parts buf rest acc fe bad =
      ⟨acc ++ (walkG parts buf rest).resolved,
       (walkG parts buf rest).logged.foldl logExc1 fe,
       bad - (walkG parts buf rest).consumed,
       (walkG parts buf rest).buf,
       (walkG parts buf rest).rest⟩ := by
  induction parts with
  | nil => intro buf rest acc fe bad; simp [walk, walkG]
  | cons part parts ih =>
    intro buf rest acc fe bad
    simp only [walk, walkG]
    split
    · simp
    · split
      · simp only [ih, List.foldl_cons]
      · split
        · simp [ih, WalkRes.mk.injEq]
          ring
        · simp [ih, WalkRes.mk.injEq]

/-- Variant of logFold_none stated on the unfolded cons fold. -/
theorem logFold_cons (e : PError) (es : List PError) :
    List.foldl logExc1 (logExc1 none e) es = some (e, maxBases (e :: es)) := by
  simpa [List.foldl_cons] using logFold_none e es

/-- The badness bookkeeping of one attempt collapses to finalBadness. -/
theorem bad0_eq (w : Wrapper) (b0 : Int) (cmd : String) (args : List String) :
    (if cmd ∈ w.command.options then b0 - 3 else b0)
      - ((walkG w.args none args).consumed : Int)
      = finalBadness w b0 cmd args := by
  unfold finalBadness; split <;> ring

/-- One candidate attempt (the command Part matched) equals the fold of its
chronological error log: if the log is empty the attempt succeeds with the
seeded resolved arguments, otherwise it raises the first logged error with
the folded badness plus the final running badness. -/
theorem call_fe1 (w : Wrapper) (st : WState) (cmd : String) (args : List String)
    (c : Argument) (hc : w.command.matchTok cmd = .ok c) :
    Wrapper.call w st cmd args =
      (match (attemptLogged w c args).foldl logExc1 none with
       | some (e, b) =>
         (.failure e (b + finalBadness w st.badness cmd args),
          ⟨some (e, b + finalBadness w st.badness cmd args),
           finalBadness w st.badness cmd args⟩)
       | none =>
         (.success (seedArgs w c ++ (walkG w.args none args).resolved),
          ⟨none, finalBadness w st.badness cmd args⟩)) := by
  simp only [Wrapper.call, hc]
  rw [walk_eq_ghost]
  simp only [attemptLogged, structuralLogged, seedArgs]
  rcases hbuf : (walkG w.args none args).buf with _ | v
  · rcases hrest : (walkG w.args none args).rest with _ | ⟨t, ts⟩
    · rcases hlog : (walkG w.args none args).logged with _ | ⟨e, es⟩
      · rcases hh : w.handler
            ((if w.command.free_name ≠ "" || !w.command.mandatory
              then [c] else []) ++ (walkG w.args none args).resolved)
          with _ | he
        · simp [hbuf, hrest, hlog, hh, bad0_eq]
        · simp [hbuf, hrest, hlog, hh, bad0_eq, logExc1, maxBases]
      · simp [hbuf, hrest, hlog, bad0_eq, logFold_cons]
    · rcases hlog : (walkG w.args none args).logged with _ | ⟨e, es⟩
      · simp [hbuf, hrest, hlog, bad0_eq, logExc1, maxBases]
      · simp [hbuf, hrest, hlog, bad0_eq, List.foldl_append, logFold_cons,
          logFold_some, maxBases, logExc1]
  · rcases hlog : (walkG w.args none args).logged with _ | ⟨e, es⟩
    · simp [hbuf, hlog, bad0_eq, logExc1, maxBases]
    · simp [hbuf, hlog, bad0_eq, List.foldl_append, logFold_cons,
        logFold_some, maxBases, logExc1]

/-- An attempt whose command Part does not match returns False and leaves the
badness untouched. -/
theorem call_noMatch (w : Wrapper) (st : WState) (cmd : String)
    (args : List String) (e : PError) (he : w.command.matchTok cmd = .error e) :
    Wrapper.call w st cmd args = (.noMatch, ⟨none, st.badness⟩) := by
  simp [Wrapper.call, he]

/-- A candidate attempt with an empty error log returns True, invoking the
handler on the seeded resolved arguments. -/
theorem call_spec_success (w : Wrapper) (st : WState) (cmd : String)
    (args : List String) (c : Argument) (hc : w.command.matchTok cmd = .ok c)
    (hL : attemptLogged w c args = []) :
    Wrapper.call w st cmd args =
      (.success (seedArgs w c ++ (walkG w.args none args).resolved),
       ⟨none, finalBadness w st.badness cmd args⟩) := by
  rw [call_fe1 w st cmd args c hc, hL]
  rfl

/-- A candidate attempt with a nonempty error log raises the chronologically
first logged error, carrying the maximum base badness of all logged errors
plus the final running badness. -/
theorem call_spec_fail (w : Wrapper) (st : WState) (cmd : String)
    (args : List String) (c : Argument) (e : PError) (es : List PError)
    (hc : w.command.matchTok cmd = .ok c)
    (hL : attemptLogged w c args = e :: es) :
    Wrapper.call w st cmd args =
      (.failure e (maxBases (e :: es) + finalBadness w st.badness cmd args),
       ⟨some (e, maxBases (e :: es) + finalBadness w st.badness cmd args),
        finalBadness w st.badness cmd args⟩) := by
  rw [call_fe1 w st cmd args c hc, hL]
  simp [logFold_cons]

/-- Errors returned by the token matcher are always _InvalidOption errors for
the Part and token it was asked about. -/
theorem matchTok_error (p : Part) (u : String) (e : PError)
    (h : p.matchTok u = .error e) : e = .invalidOption p u := by
  unfold Part.matchTok at h
  split at h
  · cases h
  · split at h
    · cases h
    · split at h
      · cases h
      · cases h; rfl

/-- Values returned by the token matcher are either the token itself or the
empty value. -/
theorem matchTok_ok_val (p : Part) (u : String) (a : Argument)
    (h : p.matchTok u = .ok a) : a.val = u ∨ a.val = "" := by
  unfold Part.matchTok at h
  split at h
  · cases h; left; rfl
  · split at h
    · cases h; left; rfl
    · split at h
      · cases h; right; rfl
      · cases h

/-- Every error the walk logs is an _InvalidOption or a _MissingMandatory
error, so its base badness is 3 or 4. -/
theorem walkG_logged_shape (parts : List Part) : ∀ (buf : Option String)
    (rest : List String) (e : PError), e ∈ (walkG parts buf rest).logged →
    (∃ p v, e = .invalidOption p v) ∨ (∃ p, e = .missingMandatory p) := by
  induction parts with
  | nil => intro buf rest e he; simp [walkG] at he
  | cons part parts ih =>
    intro buf rest e he
    simp only [walkG] at he
    split at he
    · simp at he
      exact Or.inr ⟨part, he⟩
    · rename_i hne
      split at he
      · rename_i err herr
        simp at he
        rcases he with he | he
        · exact Or.inl ⟨part, _, by rw [he, matchTok_error _ _ _ herr]⟩
        · exact ih _ _ _ he
      · rename_i a ha
        split at he <;> exact ih _ _ _ he

/-- The base badness of every structurally logged error is at least 3. -/
theorem structural_base_ge (w : Wrapper) (args : List String) (e : PError)
    (he : e ∈ structuralLogged w args) : 3 ≤ e.base := by
  unfold structuralLogged at he
  rcases List.mem_append.mp he with h | h
  · rcases walkG_logged_shape w.args none args e h with ⟨p, v, rfl⟩ | ⟨p, rfl⟩
    · simp [PError.base]
    · simp [PError.base]
  · rcases hbuf : (walkG w.args none args).buf with _ | v
    · rcases hrest : (walkG w.args none args).rest with _ | ⟨t, ts⟩
      · simp [hbuf, hrest] at h
      · simp [hbuf, hrest] at h
        rw [h]; simp [PError.base]
    · simp [hbuf] at h
      rw [h]; simp [PError.base]

/-- The walk never consumes more tokens than the buffer and the remaining
user arguments provide. -/
theorem consumed_le (parts : List Part) : ∀ (buf : Option String)
    (rest : List String),
    (walkG parts buf rest).consumed ≤ bufN buf + rest.length := by
  induction parts with
  | nil => intro buf rest; simp [walkG]
  | cons part parts ih =>
    intro buf rest
    rcases buf with _ | t
    · rcases rest with _ | ⟨t, ts⟩
      · simp only [walkG]
        split
        · simp [bufN]
        · split
          · simpa [bufN] using ih none []
          · rename_i a ha
            split
            · rename_i hv
              rcases matchTok_ok_val part "" a ha with h | h <;> simp [h] at hv
            · simpa [bufN] using ih none []
      · simp only [walkG]
        split
        · rename_i h; simp at h
        · split
          · have := ih none ts; simp [bufN] at this ⊢; omega
          · rename_i a ha
            split
            · have := ih none ts; simp [bufN] at this ⊢; omega
            · have := ih (some t) ts; simp [bufN] at this ⊢; omega
    · simp only [walkG]
      split
      · rename_i h; simp at h
      · split
        · have := ih none rest; simp [bufN] at this ⊢; omega
        · rename_i a ha
          split
          · have := ih none rest; simp [bufN] at this ⊢; omega
          · have := ih (some t) rest; simp [bufN] at this ⊢; omega

/-- When the walk logs nothing and leaves neither a buffered nor an unpulled
token, every provided token was consumed by a nonempty match. -/
theorem consumed_complete (parts : List Part) : ∀ (buf : Option String)
    (rest : List String),
    (walkG parts buf rest).logged = [] →
    (walkG parts buf rest).buf = none →
    (walkG parts buf rest).rest = [] →
    (walkG parts buf rest).consumed = bufN buf + rest.length := by
  induction parts with
  | nil =>
    intro buf rest h1 h2 h3
    simp [walkG] at h1 h2 h3 ⊢
    simp [h2, h3, bufN]
  | cons part parts ih =>
    intro buf rest h1 h2 h3
    rcases buf with _ | t
    · rcases rest with _ | ⟨t, ts⟩
      · by_cases hm : part.mandatory = true
        · simp [walkG, hm] at h1
        · rcases hmt : part.matchTok "" with e | a
          · simp [walkG, hm, hmt] at h1
          · by_cases hv : a.val = ""
            · simp [walkG, hm, hmt, hv] at h1 h2 h3 ⊢
              simpa [bufN] using ih none [] h1 h2 h3
            · rcases matchTok_ok_val part "" a hmt with h | h <;> simp [h] at hv
      · rcases hmt : part.matchTok t with e | a
        · simp [walkG, hmt] at h1
        · by_cases hv : a.val = ""
          · simp [walkG, hmt, hv] at h1 h2 h3 ⊢
            have := ih (some t) ts h1 h2 h3
            simp [bufN] at this ⊢
            omega
          · simp [walkG, hmt, hv] at h1 h2 h3 ⊢
            have := ih none ts h1 h2 h3
            simp [bufN] at this ⊢
            omega
    · rcases hmt : part.matchTok t with e | a
      · simp [walkG, hmt] at h1
      · by_cases hv : a.val = ""
        · simp [walkG, hmt, hv] at h1 h2 h3 ⊢
          have := ih (some t) rest h1 h2 h3
          simp [bufN] at this ⊢
          omega
        · simp [walkG, hmt, hv] at h1 h2 h3 ⊢
          have := ih none rest h1 h2 h3
          simp [bufN] at this ⊢
          omega

/-- Folding max over bases stays below a common bound. -/
theorem foldl_max_le (l : List PError) : ∀ b c : Int, b ≤ c →
    (∀ e ∈ l, e.base ≤ c) → l.foldl (fun b e => max b e.base) b ≤ c := by
  induction l with
  | nil => intro b c hb _; simpa using hb
  | cons e es ih =>
    intro b c hb h
    simp only [List.foldl_cons]
    exact ih _ c (max_le hb (h e (by simp))) (fun x hx => h x (by simp [hx]))

/-- Folding max over bases only grows the accumulator. -/
theorem le_foldl_max (l : List PError) : ∀ b : Int,
    b ≤ l.foldl (fun b e => max b e.base) b := by
  induction l with
  | nil => intro b; simp
  | cons e es ih =>
    intro b
    simp only [List.foldl_cons]
    exact le_trans (le_max_left _ _) (ih _)

/-- The folded max dominates the base of every member. -/
theorem mem_le_foldl_max (l : List PError) : ∀ (b : Int) (e : PError), e ∈ l →
    e.base ≤ l.foldl (fun b x => max b x.base) b := by
  induction l with
  | nil => intro b e he; cases he
  | cons x xs ih =>
    intro b e he
    rcases List.mem_cons.mp he with rfl | h
    · simp only [List.foldl_cons]
      exact le_trans (le_max_right _ _) (le_foldl_max xs _)
    · simp only [List.foldl_cons]
      exact ih _ e h

/-- The maximum base of any log is at most 4. -/
theorem maxBases_le_four (l : List PError) : maxBases l ≤ 4 :=
  foldl_max_le l 0 4 (by norm_num) (fun e _ => base_le_four e)

/-- The maximum base of a nonempty log of errors of base at least 3 is at
least 3. -/
theorem maxBases_ge_three (e : PError) (es : List PError)
    (h : ∀ x ∈ e :: es, 3 ≤ x.base) : 3 ≤ maxBases (e :: es) :=
  le_trans (h e (by simp)) (mem_le_foldl_max (e :: es) 0 e (by simp))

/-- An attempt that raises had a matching command Part. -/
theorem fail_mcmd (w : Wrapper) (st : WState) (cmd : String)
    (args : List String) (e : PError) (wt : Int)
    (hfail : (Wrapper.call w st cmd args).1 = .failure e wt) :
    ∃ c, w.command.matchTok cmd = .ok c := by
  rcases h : w.command.matchTok cmd with er | c
  · rw [call_noMatch w st cmd args er h] at hfail
    cases hfail
  · exact ⟨c, rfl⟩

/-- An attempt that raises did log errors, the raised error is the first of
them and the raised badness is the maximum base plus the final running
badness. -/
theorem fail_weight_eq (w : Wrapper) (st : WState) (cmd : String)
    (args : List String) (c : Argument) (e : PError) (wt : Int)
    (hc : w.command.matchTok cmd = .ok c)
    (hfail : (Wrapper.call w st cmd args).1 = .failure e wt) :
    ∃ es, attemptLogged w c args = e :: es ∧
      wt = maxBases (e :: es) + finalBadness w st.badness cmd args := by
  rcases hL : attemptLogged w c args with _ | ⟨e', es⟩
  · rw [call_spec_success w st cmd args c hc hL] at hfail
    cases hfail
  · rw [call_spec_fail w st cmd args c e' es hc hL] at hfail
    cases hfail
    exact ⟨es, rfl, rfl⟩

/-- A raised badness never exceeds 4 plus the final running badness. -/
theorem fail_weight_le (w : Wrapper) (st : WState) (cmd : String)
    (args : List String) (c : Argument) (e : PError) (wt : Int)
    (hc : w.command.matchTok cmd = .ok c)
    (hfail : (Wrapper.call w st cmd args).1 = .failure e wt) :
    wt ≤ 4 + finalBadness w st.badness cmd args := by
  rcases fail_weight_eq w st cmd args c e wt hc hfail with ⟨es, _, rfl⟩
  have := maxBases_le_four (e :: es)
  omega

/-- An attempt that raises after consuming strictly fewer tokens than were
provided logged a structural error, so its raised badness is at least 3 plus
the final running badness. -/
theorem fail_weight_ge (w : Wrapper) (st : WState) (cmd : String)
    (args : List String) (c : Argument) (e : PError) (wt : Int)
    (hc : w.command.matchTok cmd = .ok c)
    (hfail : (Wrapper.call w st cmd args).1 = .failure e wt)
    (hlt : (walkG w.args none args).consumed < args.length) :
    3 + finalBadness w st.badness cmd args ≤ wt := by
  rcases fail_weight_eq w st cmd args c e wt hc hfail with ⟨es, hL, rfl⟩
  have h3 : 3 ≤ maxBases (e :: es) := by
    rcases hS : structuralLogged w args with _ | ⟨e'', es''⟩
    · exfalso
      have hg : (walkG w.args none args).logged = [] ∧
          (walkG w.args none args).buf = none ∧
          (walkG w.args none args).rest = [] := by
        unfold structuralLogged at hS
        rcases List.append_eq_nil.mp hS with ⟨hl, hr⟩
        refine ⟨hl, ?_⟩
        rcases hbuf : (walkG w.args none args).buf with _ | v
        · rcases hrest : (walkG w.args none args).rest with _ | ⟨t, ts⟩
          · exact ⟨rfl, rfl⟩
          · rw [hbuf, hrest] at hr; cases hr
        · rw [hbuf] at hr; cases hr
      have := consumed_complete w.args none args hg.1 hg.2.1 hg.2.2
      simp [bufN] at this
      omega
    · have hLS : attemptLogged w c args = structuralLogged w args := by
        unfold attemptLogged
        rw [hS]
      rw [hL, hS] at hLS
      exact hLS ▸ maxBases_ge_three e'' es''
        (fun x hx => structural_base_ge w args x (hS ▸ hx)) |>.trans_eq (by rw [hLS])
  omega

/-- C5: for every Part and token the matcher is evaluated in strict priority:
a token equal to a literal option yields the literal Argument with no slot
name, even when a free slot could also capture it; otherwise a nonempty token
with a free slot present yields a free-slot Argument labelled with the slot
name; otherwise an optional Part yields the empty Argument; otherwise an
_InvalidOption error with base badness 3 is raised. -/
theorem C5_match_priority (p : Part) (t : String) :
    (t ∈ p.options → p.matchTok t = .ok ⟨t, none⟩) ∧
    (t ∉ p.options → p.free_name ≠ "" → t ≠ "" →
      p.matchTok t = .ok ⟨t, some p.free_name⟩) ∧
    (t ∉ p.options → (p.free_name = "" ∨ t = "") → p.mandatory = false →
      p.matchTok t = .ok ⟨"", none⟩) ∧
    (t ∉ p.options → (p.free_name = "" ∨ t = "") → p.mandatory = true →
      p.matchTok t = .error (.invalidOption p t) ∧
        (PError.invalidOption p t).base = 3) := by
  refine ⟨?_, ?_, ?_, ?_⟩
  · intro h1
    simp [Part.matchTok, h1]
  · intro h1 h2 h3
    simp [Part.matchTok, h1, h2, h3]
  · intro h1 h2 h3
    have hcond : ¬(p.free_name ≠ "" ∧ t ≠ "") := by
      rcases h2 with h | h <;> simp [h]
    simp [Part.matchTok, h1, hcond, h3]
  · intro h1 h2 h3
    have hcond : ¬(p.free_name ≠ "" ∧ t ≠ "") := by
      rcases h2 with h | h <;> simp [h]
    simp [Part.matchTok, h1, hcond, h3, PError.base]

/-- Witness for C5 at concrete Parts and tokens: the literal always beats the
overlapping free slot, the free slot fires on other nonempty tokens, an
optional Part resolves empty, and a mandatory Part without a match raises. -/
theorem C5_match_priority_witness :
    (Part.ofString "a|<x>").matchTok "a" = .ok ⟨"a", none⟩ ∧
    (Part.ofString "a|<x>").matchTok "b" = .ok ⟨"b", some "x"⟩ ∧
    (Part.ofString "[on|off]").matchTok "maybe" = .ok ⟨"", none⟩ ∧
    (Part.ofString "on|off").matchTok "maybe"
      = .error (.invalidOption (Part.ofString "on|off") "maybe") :=
  ⟨by
    have h := (C5_match_priority (Part.ofString "a|<x>") "a").1 (by decide)
    simpa using h,
   by
    have h := (C5_match_priority (Part.ofString "a|<x>") "b").2.1
      (by decide) (by decide) (by decide)
    simpa using h,
   by
    have h := (C5_match_priority (Part.ofString "[on|off]") "maybe").2.2.1
      (by decide) (by decide) (by decide)
    simpa using h,
   by
    have h := ((C5_match_priority (Part.ofString "on|off") "maybe").2.2.2
      (by decide) (by decide) (by decide)).1
    simpa using h⟩

/-- C10: the matcher raises _InvalidOption exactly when the Part is mandatory,
the token equals none of its literal options, and the Part has no free slot or
the token is empty; consequently an attempt whose command Part is optional
never returns False, so that command is a candidate for every input line. -/
theorem C10_invalid_option_iff :
    (∀ (p : Part) (t : String),
      p.matchTok t = .error (.invalidOption p t) ↔
        (p.mandatory = true ∧ t ∉ p.options ∧ (p.free_name = "" ∨ t = ""))) ∧
    (∀ (w : Wrapper) (st : WState) (cmd : String) (args : List String),
      w.command.mandatory = false →
        (Wrapper.call w st cmd args).1 ≠ .noMatch) := by
  constructor
  · intro p t
    constructor
    · intro h
      unfold Part.matchTok at h
      split at h
      · cases h
      · split at h
        · cases h
        · split at h
          · cases h
          · rename_i h1 h2 h3
            refine ⟨by simpa using h3, h1, ?_⟩
            by_cases hf : p.free_name = ""
            · exact Or.inl hf
            · right
              by_contra ht
              exact h2 ⟨hf, ht⟩
    · rintro ⟨h1, h2, h3⟩
      have hcond : ¬(p.free_name ≠ "" ∧ t ≠ "") := by
        rcases h3 with h | h <;> simp [h]
      simp [Part.matchTok, h2, hcond, h1]
  · intro w st cmd args hopt hno
    rcases h : w.command.matchTok cmd with e | c
    · unfold Part.matchTok at h
      split at h
      · cases h
      · split at h
        · cases h
        · cases h
    · rw [call_fe1 w st cmd args c h] at hno
      rcases hfold : (attemptLogged w c args).foldl logExc1 none with _ | ⟨e, b⟩
      · rw [hfold] at hno
        cases hno
      · rw [hfold] at hno
        cases hno

/-- Witness for C10: a mandatory two-literal Part raises on an unknown token,
and a wrapper with an optional command Part never answers False, even on an
input token unrelated to its options. -/
theorem C10_invalid_option_iff_witness :
    (Part.ofString "on|off").matchTok "maybe2"
      = .error (.invalidOption (Part.ofString "on|off") "maybe2") ∧
    (Wrapper.call (mkWrapper "[go] <x>" hNone) initW "anything" ["v"]).1
      ≠ .noMatch :=
  ⟨(C10_invalid_option_iff.1 (Part.ofString "on|off") "maybe2").mpr (by decide),
   C10_invalid_option_iff.2 (mkWrapper "[go] <x>" hNone) initW "anything" ["v"]
     (by decide)⟩

/-- C8 counterexample: the Part compiled from the empty string does NOT have
zero literal options: splitting the empty string on the bar character yields
one fragment, the empty string, which becomes a literal option. -/
theorem C8_counterexample :
    (Part.ofString "").options = [""] ∧ (Part.ofString "").options ≠ [] := by
  refine ⟨by decide, by decide⟩

/-- C8 amended: a Part compiled from the empty string has exactly one literal
option, the empty string, no free slot, and is mandatory; it matches only the
empty token; and dispatching the empty input line against a registered
empty-syntax command matches it and runs its handler with zero arguments. -/
theorem C8_empty_part :
    Part.ofString "" = ⟨"", true, [""], ""⟩ ∧
    (∀ t : String, (∃ a, (Part.ofString "").matchTok t = .ok a) ↔ t = "") ∧
    tokenize "" = [""] ∧
    (dispatchLoop [(mkWrapper "" hNone, initW)] "" []).1 = some (0, []) := by
  refine ⟨by decide, ?_, by decide, by decide⟩
  intro t
  have hp : Part.ofString "" = (⟨"", true, [""], ""⟩ : Part) := by decide
  rw [hp]
  constructor
  · rintro ⟨a, ha⟩
    unfold Part.matchTok at ha
    split at ha
    · rename_i h
      simpa using h
    · split at ha
      · rename_i h
        simp at h
      · split at ha
        · rename_i h
          simp at h
        · cases ha
  · rintro rfl
    exact ⟨⟨"", none⟩, rfl⟩

/-- Witness for C8 at the concrete empty token: the empty-string Part accepts
it. -/
theorem C8_empty_part_witness :
    ∃ a, (Part.ofString "").matchTok "" = .ok a :=
  (C8_empty_part.2.1 "").mpr rfl

/-- C2: the code resets only the first-exception slot at the start of an
attempt; the confidence counter (_badness) keeps its decremented value from
the previous attempt on the same wrapper, so two identical attempts raise
different weights (10001, then 9998) and the counter after the second attempt
is 9994, not a fresh 10000. -/
theorem C2_badness_not_reset :
    (Wrapper.call (mkWrapper "foo" hNone) initW "foo" ["extra"]).1
        = .failure (.redundant "extra") 10001 ∧
    (Wrapper.call (mkWrapper "foo" hNone) initW "foo" ["extra"]).2
        = ⟨some (.redundant "extra", 10001), 9997⟩ ∧
    (Wrapper.call (mkWrapper "foo" hNone)
        (Wrapper.call (mkWrapper "foo" hNone) initW "foo" ["extra"]).2
        "foo" ["extra"]).1
        = .failure (.redundant "extra") 9998 ∧
    (Wrapper.call (mkWrapper "foo" hNone)
        (Wrapper.call (mkWrapper "foo" hNone) initW "foo" ["extra"]).2
        "foo" ["extra"]).2.badness ≠ initW.badness - 3 - 0 := by
  refine ⟨by decide, by decide, by decide, by decide⟩

/-- C7 counterexample: for grammar greet once or n-times with an optional
free slot, the input with no third token succeeds and the handler receives a
second positional value, the empty Argument of the skipped optional Part,
although that Part carried no information. -/
theorem C7_counterexample :
    (Wrapper.call (mkWrapper "greet once|n-times [<n>]" hNone) initW
        "greet" ["once"]).1
      = .success [⟨"once", none⟩, ⟨"", none⟩] := by
  decide

/-- C7 amended: when an attempt succeeds the handler is invoked positionally
with the command value exactly when its Part carries information (free slot or
optional), followed by one resolved value for every argument Part the walk
matched, including the empty value of a skipped optional Part; in particular
for grammar greet once or n-times with optional free n, input greet n-times 5,
the handler receives exactly the two values n-times and 5. -/
theorem C7_handler_args :
    (∀ (w : Wrapper) (st : WState) (cmd : String) (args : List String)
        (l : List Argument),
      (Wrapper.call w st cmd args).1 = .success l →
      ∃ c, w.command.matchTok cmd = .ok c ∧
        l = seedArgs w c ++ (walkG w.args none args).resolved) ∧
    (Wrapper.call (mkWrapper "greet once|n-times [<n>]" hNone) initW
        "greet" ["n-times", "5"]).1
      = .success [⟨"n-times", none⟩, ⟨"5", some "n"⟩] := by
  constructor
  · intro w st cmd args l hs
    rcases h : w.command.matchTok cmd with e | c
    · rw [call_noMatch w st cmd args e h] at hs
      cases hs
    · refine ⟨c, rfl, ?_⟩
      rcases hfold : (attemptLogged w c args).foldl logExc1 none with _ | ⟨e, b⟩
      · rw [call_fe1 w st cmd args c h, hfold] at hs
        simp at hs
        exact hs.symm
      · rw [call_fe1 w st cmd args c h, hfold] at hs
        simp at hs
  · decide

/-- Witness for C7 at the concrete scenario input: the successful resolved
list is the seed plus the values of the walked Parts. -/
theorem C7_handler_args_witness :
    ∃ c, (mkWrapper "greet once|n-times [<n>]" hNone).command.matchTok "greet"
        = .ok c ∧
      [(⟨"n-times", none⟩ : Argument), ⟨"5", some "n"⟩]
        = seedArgs (mkWrapper "greet once|n-times [<n>]" hNone) c
          ++ (walkG (mkWrapper "greet once|n-times [<n>]" hNone).args none
              ["n-times", "5"]).resolved :=
  C7_handler_args.1 (mkWrapper "greet once|n-times [<n>]" hNone) initW
    "greet" ["n-times", "5"] [⟨"n-times", none⟩, ⟨"5", some "n"⟩] (by decide)

/-- When structural errors were logged the attempt log is exactly them. -/
theorem attemptLogged_of_ne (w : Wrapper) (c : Argument) (args : List String)
    (h : structuralLogged w args ≠ []) :
    attemptLogged w c args = structuralLogged w args := by
  unfold attemptLogged
  rcases hS : structuralLogged w args with _ | ⟨e, es⟩
  · exact absurd hS h
  · rfl

/-- When no structural error was logged the attempt log is the handler log. -/
theorem attemptLogged_handler (w : Wrapper) (c : Argument) (args : List String)
    (hS : structuralLogged w args = []) :
    attemptLogged w c args =
      (match w.handler (seedArgs w c ++ (walkG w.args none args).resolved) with
       | some e => [e.toPError]
       | none => []) := by
  unfold attemptLogged
  rw [hS]

/-- A handler-raised error is never the _Redundant variant. -/
theorem htoP_not_red (e : HError) : PError.isRedundant e.toPError = false := by
  cases e <;> rfl

/-- C4: within one candidate attempt, if at least one error is logged
(including a handler-raised one) the raised error is the chronologically
first logged one, its badness is the maximum of the base badnesses of all
logged errors plus the running confidence penalty of the attempt; if no error
is logged the attempt returns True. -/
theorem C4_representative_error (w : Wrapper) (st : WState) (cmd : String)
    (args : List String) (c : Argument)
    (hc : w.command.matchTok cmd = .ok c) :
    (∀ e es, attemptLogged w c args = e :: es →
      (Wrapper.call w st cmd args).1
        = .failure e (maxBases (e :: es) + finalBadness w st.badness cmd args)) ∧
    (attemptLogged w c args = [] →
      (Wrapper.call w st cmd args).1
        = .success (seedArgs w c ++ (walkG w.args none args).resolved)) := by
  constructor
  · intro e es hL
    rw [call_spec_fail w st cmd args c e es hc hL]
  · intro hL
    rw [call_spec_success w st cmd args c hc hL]

/-- Witness for C4: an attempt that logs an _InvalidOption (badness 3) and
then a _Redundant (badness 4) raises the first, the _InvalidOption, but with
the maximum base 4 folded into the weight. -/
theorem C4_representative_error_witness :
    (Wrapper.call (mkWrapper "go on|off" hNone) initW "go" ["x", "y"]).1
      = .failure (.invalidOption (Part.ofString "on|off") "x")
          (maxBases [.invalidOption (Part.ofString "on|off") "x", .redundant "y"]
            + finalBadness (mkWrapper "go on|off" hNone) initW.badness
                "go" ["x", "y"]) :=
  (C4_representative_error (mkWrapper "go on|off" hNone) initW "go" ["x", "y"]
      ⟨"go", none⟩ (by rfl)).1
    (.invalidOption (Part.ofString "on|off") "x") [.redundant "y"] (by decide)

/-- C9: after the argument walk, if a token remains buffered or unconsumed
then the attempt logs exactly one _Redundant error, with base badness 4,
naming the first surplus token; if every token was consumed no _Redundant
error is logged.  The walk itself and the handler never log _Redundant
errors, so the filter over the whole chronological log is decisive. -/
theorem C9_exactly_one_redundant (w : Wrapper) (c : Argument)
    (args : List String) :
    (∀ v, firstSurplus (walkG w.args none args) = some v →
      (attemptLogged w c args).filter PError.isRedundant = [.redundant v] ∧
      (PError.redundant v).base = 4) ∧
    (firstSurplus (walkG w.args none args) = none →
      (attemptLogged w c args).filter PError.isRedundant = []) := by
  have hwalk : ∀ e ∈ (walkG w.args none args).logged,
      ¬(PError.isRedundant e = true) := by
    intro e he
    rcases walkG_logged_shape w.args none args e he with ⟨p, v, rfl⟩ | ⟨p, rfl⟩ <;>
      simp [PError.isRedundant]
  have hfw : (walkG w.args none args).logged.filter PError.isRedundant = [] :=
    List.filter_eq_nil_iff.mpr hwalk
  constructor
  · intro v hv
    rcases hbuf : (walkG w.args none args).buf with _ | v0
    · rcases hrest : (walkG w.args none args).rest with _ | ⟨t, ts⟩
      · unfold firstSurplus at hv
        rw [hbuf, hrest] at hv
        simp at hv
      · unfold firstSurplus at hv
        rw [hbuf, hrest] at hv
        simp at hv
        subst hv
        have hS : structuralLogged w args
            = (walkG w.args none args).logged ++ [.redundant t] := by
          simp only [structuralLogged, hbuf, hrest]
        rw [attemptLogged_of_ne w c args (by rw [hS]; simp), hS,
          List.filter_append, hfw]
        refine ⟨by simp [PError.isRedundant], by simp [PError.base]⟩
    · unfold firstSurplus at hv
      rw [hbuf] at hv
      simp at hv
      subst hv
      have hS : structuralLogged w args
          = (walkG w.args none args).logged ++ [.redundant v0] := by
        simp only [structuralLogged, hbuf]
      rw [attemptLogged_of_ne w c args (by rw [hS]; simp), hS,
        List.filter_append, hfw]
      refine ⟨by simp [PError.isRedundant], by simp [PError.base]⟩
  · intro hv
    have hbuf : (walkG w.args none args).buf = none := by
      rcases hb : (walkG w.args none args).buf with _ | v0
      · rfl
      · unfold firstSurplus at hv
        rw [hb] at hv
        cases hv
    have hrest : (walkG w.args none args).rest = [] := by
      rcases hr : (walkG w.args none args).rest with _ | ⟨t, ts⟩
      · rfl
      · unfold firstSurplus at hv
        rw [hbuf, hr] at hv
        simp at hv
    have hS : structuralLogged w args = (walkG w.args none args).logged := by
      simp only [structuralLogged, hbuf, hrest]
      simp
    rcases hlog : (walkG w.args none args).logged with _ | ⟨e, es⟩
    · rw [attemptLogged_handler w c args (by rw [hS, hlog])]
      rcases hh : w.handler (seedArgs w c ++ (walkG w.args none args).resolved)
        with _ | he
      · simp
      · simp [htoP_not_red]
    · rw [attemptLogged_of_ne w c args (by rw [hS, hlog]; simp), hS]
      exact hfw

/-- Witness for C9: with grammar set and one free slot, two argument tokens
leave the second one unpulled, so exactly one _Redundant error for it is
logged. -/
theorem C9_exactly_one_redundant_witness :
    (attemptLogged (mkWrapper "set <k>" hNone) ⟨"set", none⟩ ["a", "b"]).filter
        PError.isRedundant = [.redundant "b"] :=
  ((C9_exactly_one_redundant (mkWrapper "set <k>" hNone) ⟨"set", none⟩
      ["a", "b"]).1 "b" (by decide)).1

/-- C3 counterexample: candidate A (free command with three mandatory free
arguments) consumes the command token and both argument tokens correctly and
fails only on the missing third argument, while candidate B (literal command
with one literal argument) consumes no argument token correctly and logs two
errors; yet the weight of A (10002) is strictly greater than the weight of B
(10001), because B alone gets the literal-alias confidence bonus of 3 on the
command token. -/
theorem C3_counterexample :
    (Wrapper.call (mkWrapper "<cmd> <a> <b> <c>" hNone) initW "go"
        ["x", "y"]).1
      = .failure (.missingMandatory (Part.ofString "<c>")) 10002 ∧
    (Wrapper.call (mkWrapper "go on|off" hNone) initW "go" ["x", "y"]).1
      = .failure (.invalidOption (Part.ofString "on|off") "x") 10001 ∧
    (walkG (mkWrapper "go on|off" hNone).args none ["x", "y"]).consumed
      < (walkG (mkWrapper "<cmd> <a> <b> <c>" hNone).args none
          ["x", "y"]).consumed ∧
    ¬((10002 : Int) ≤ 10001) := by
  refine ⟨by decide, by decide, by decide, by decide⟩

/-- C3 amended: for two candidates attempted on the same input from the same
starting badness that both fail, IF additionally both candidates receive the
same literal-alias confidence bonus on the command token (the first token is
a literal option of both commands or of neither), then the candidate that
consumes strictly more argument tokens correctly raises a weight that is less
than or equal to the weight of the other. -/
theorem C3_monotonic_ranking (wA wB : Wrapper) (b0 : Int) (cmd : String)
    (args : List String) (eA eB : PError) (wtA wtB : Int)
    (hA : (Wrapper.call wA ⟨none, b0⟩ cmd args).1 = .failure eA wtA)
    (hB : (Wrapper.call wB ⟨none, b0⟩ cmd args).1 = .failure eB wtB)
    (halias : (cmd ∈ wA.command.options) ↔ (cmd ∈ wB.command.options))
    (hmore : (walkG wB.args none args).consumed
      < (walkG wA.args none args).consumed) :
    wtA ≤ wtB := by
  rcases fail_mcmd wA ⟨none, b0⟩ cmd args eA wtA hA with ⟨cA, hcA⟩
  rcases fail_mcmd wB ⟨none, b0⟩ cmd args eB wtB hB with ⟨cB, hcB⟩
  have hle := fail_weight_le wA ⟨none, b0⟩ cmd args cA eA wtA hcA hA
  have hcons : (walkG wB.args none args).consumed < args.length := by
    have h1 := consumed_le wA.args none args
    simp [bufN] at h1
    omega
  have hge := fail_weight_ge wB ⟨none, b0⟩ cmd args cB eB wtB hcB hB hcons
  have halias2 : (if cmd ∈ wA.command.options then (3 : Int) else 0)
      = (if cmd ∈ wB.command.options then (3 : Int) else 0) := by
    by_cases h : cmd ∈ wA.command.options
    · simp [h, halias.mp h]
    · have hb : ¬(cmd ∈ wB.command.options) := fun hbm => h (halias.mpr hbm)
      simp [h, hb]
  unfold finalBadness at hle hge
  rw [halias2] at hle
  omega

/-- Witness for C3 at the scenario of the specification: grammar set with two
free slots on input set onlykey raises _MissingMandatory after consuming one
argument token; grammar set with literal options consumes none and raises
_InvalidOption; both get the alias bonus, and the first weight is less than or
equal to the second (both are 10000). -/
theorem C3_monotonic_ranking_witness :
    (Wrapper.call (mkWrapper "set <k> <v>" hNone) ⟨none, INITIAL_BADNESS⟩
        "set" ["onlykey"]).1
      = .failure (.missingMandatory (Part.ofString "<v>")) 10000 ∧
    (Wrapper.call (mkWrapper "set on|off" hNone) ⟨none, INITIAL_BADNESS⟩
        "set" ["onlykey"]).1
      = .failure (.invalidOption (Part.ofString "on|off") "onlykey") 10000 ∧
    (10000 : Int) ≤ 10000 :=
  ⟨by decide, by decide,
   C3_monotonic_ranking (mkWrapper "set <k> <v>" hNone)
     (mkWrapper "set on|off" hNone) INITIAL_BADNESS "set" ["onlykey"]
     (.missingMandatory (Part.ofString "<v>"))
     (.invalidOption (Part.ofString "on|off") "onlykey") 10000 10000
     (by decide) (by decide) (by decide) (by decide)⟩

/-- C1 counterexample: with commands foo free-x and plain foo registered in
that order and input foo, dispatch succeeds, but the handler that runs is the
one of the SECOND command (index 1), although the command Part of the FIRST
command (index 0) accepts the first input token foo: the first candidate
raises _MissingMandatory instead of running and the dispatcher moves on. -/
theorem C1_counterexample :
    (dispatchLoop
        [(mkWrapper "foo <x>" hNone, initW), (mkWrapper "foo" hNone, initW)]
        "foo" []).1 = some (1, []) ∧
    (mkWrapper "foo <x>" hNone).command.matchTok "foo" = .ok ⟨"foo", none⟩ ∧
    (1 : Nat) ≠ 0 := by
  refine ⟨by decide, by rfl, by decide⟩

/-- C1 amended: if dispatch succeeds, exactly one handler runs to completion,
namely the handler of the first command in declaration order whose whole
attempt succeeds (command Part match, argument walk and handler execution);
every earlier command either was no candidate or raised, so its handler did
not run to completion. -/
theorem C1_first_success (reg : List (Wrapper × WState)) (cmd : String)
    (args : List String) : ∀ (i : Nat) (res : List Argument),
    (dispatchLoop reg cmd args).1 = some (i, res) →
    (∃ w s, reg.get? i = some (w, s) ∧
      (Wrapper.call w s cmd args).1 = .success res) ∧
    (∀ j w s, j < i → reg.get? j = some (w, s) →
      ∀ l, (Wrapper.call w s cmd args).1 ≠ .success l) := by
  induction reg with
  | nil =>
    intro i res h
    simp [dispatchLoop] at h
  | cons p ps ih =>
    intro i res h
    rcases p with ⟨w, s⟩
    rcases hc : Wrapper.call w s cmd args with ⟨r, s'⟩
    rcases r with _ | res0 | ⟨e, b⟩
    · -- noMatch: the loop continues on ps with the index shifted by one
      simp only [dispatchLoop, hc] at h
      rcases ho : (dispatchLoop ps cmd args).1 with _ | ⟨i0, res0⟩
      · rw [ho] at h
        simp at h
      · rw [ho] at h
        simp only [Option.map_some', Option.some.injEq, Prod.mk.injEq] at h
        obtain ⟨hi, hres⟩ := h
        subst hres
        rcases ih i0 res0 ho with ⟨⟨w1, s1, hg, hs1⟩, hprev⟩
        constructor
        · exact ⟨w1, s1, by rw [← hi]; simpa using hg, hs1⟩
        · intro j w2 s2 hj hg2 l hl2
          rcases j with _ | j'
          · simp at hg2
            rw [← hg2.1, ← hg2.2, hc] at hl2
            cases hl2
          · have hj' : j' < i0 := by omega
            exact hprev j' w2 s2 hj' (by simpa using hg2) l hl2
    · -- success: the loop stops with index zero
      simp only [dispatchLoop, hc] at h
      simp only [Option.some.injEq, Prod.mk.injEq] at h
      obtain ⟨hi, hres⟩ := h
      subst hres
      constructor
      · exact ⟨w, s, by rw [← hi]; simp, by rw [hc]⟩
      · intro j w2 s2 hj hg2 l hl2
        omega
    · -- failure: the error is recorded and the loop continues
      simp only [dispatchLoop, hc] at h
      rcases ho : (dispatchLoop ps cmd args).1 with _ | ⟨i0, res0⟩
      · rw [ho] at h
        simp at h
      · rw [ho] at h
        simp only [Option.map_some', Option.some.injEq, Prod.mk.injEq] at h
        obtain ⟨hi, hres⟩ := h
        subst hres
        rcases ih i0 res0 ho with ⟨⟨w1, s1, hg, hs1⟩, hprev⟩
        constructor
        · exact ⟨w1, s1, by rw [← hi]; simpa using hg, hs1⟩
        · intro j w2 s2 hj hg2 l hl2
          rcases j with _ | j'
          · simp at hg2
            rw [← hg2.1, ← hg2.2, hc] at hl2
            cases hl2
          · have hj' : j' < i0 := by omega
            exact hprev j' w2 s2 hj' (by simpa using hg2) l hl2

/-- Witness for C1 at the counterexample registry: the succeeding index 1 is
the first whose attempt succeeds, and the attempt at every earlier index does
not succeed. -/
theorem C1_first_success_witness :
    (∃ w s,
      [(mkWrapper "foo <x>" hNone, initW),
       (mkWrapper "foo" hNone, initW)].get? 1 = some (w, s) ∧
      (Wrapper.call w s "foo" []).1 = .success []) ∧
    (∀ j w s, j < 1 →
      [(mkWrapper "foo <x>" hNone, initW),
       (mkWrapper "foo" hNone, initW)].get? j = some (w, s) →
      ∀ l, (Wrapper.call w s "foo" []).1 ≠ .success l) :=
  C1_first_success
    [(mkWrapper "foo <x>" hNone, initW), (mkWrapper "foo" hNone, initW)]
    "foo" [] 1 [] (by decide)

/-- A resolve run entered with the fallback flag set never recurses: its value
does not depend on the remaining fuel and is computed from the dispatch loop
alone. -/
theorem resolveF_true (fuel : Nat) (reg : List (Wrapper × WState))
    (input : String) :
    resolveF (fuel + 1) true reg input =
      (if (dispatchLoop reg ((tokenize input).headD "")
            (tokenize input).tail).1.isSome
       then some ([], (dispatchLoop reg ((tokenize input).headD "")
            (tokenize input).tail).2.2, true)
       else some (["No additional help found."],
            (dispatchLoop reg ((tokenize input).headD "")
              (tokenize input).tail).2.2, true)) := by
  simp only [resolveF]
  split_ifs with h1 h2 <;> simp

/-- C6: entering a help fallback while already in fallback state prints the
terminal no-additional-help message and returns without recursing again (the
run with the flag set equals the run with minimal fuel and prints either
nothing, when a command matched, or exactly the terminal message); the
fallback flag is cleared when the nested call returns (a run entered with the
flag clear always finishes with the flag clear); and help-fallback recursion
never exceeds one level (fuel two always suffices from the normal state). -/
theorem C6_fallback_guard (fuel : Nat) (reg : List (Wrapper × WState))
    (input : String) :
    (resolveF (fuel + 1) true reg input = resolveF 1 true reg input) ∧
    (∀ p reg' fl, resolveF (fuel + 1) true reg input = some (p, reg', fl) →
      ((dispatchLoop reg ((tokenize input).headD "")
          (tokenize input).tail).1.isSome ∧ p = []) ∨
      (¬(dispatchLoop reg ((tokenize input).headD "")
          (tokenize input).tail).1.isSome ∧
        p = ["No additional help found."])) ∧
    (resolveF (fuel + 2) false reg input = resolveF 2 false reg input) ∧
    ((resolveF (fuel + 2) false reg input).isSome) ∧
    (∀ p reg' fl, resolveF (fuel + 2) false reg input = some (p, reg', fl) →
      fl = false) := by
  refine ⟨?_, ?_, ?_, ?_, ?_⟩
  · rw [resolveF_true, resolveF_true]
  · intro p reg' fl h
    rw [resolveF_true] at h
    split_ifs at h with h1
    · left
      refine ⟨h1, ?_⟩
      simp only [Option.some.injEq, Prod.mk.injEq] at h
      exact h.1.symm
    · right
      refine ⟨h1, ?_⟩
      simp only [Option.some.injEq, Prod.mk.injEq] at h
      exact h.1.symm
  · show resolveF (fuel + 1 + 1) false reg input
        = resolveF (0 + 1 + 1) false reg input
    simp only [resolveF, resolveF_true]
    simp
  · show (resolveF (fuel + 1 + 1) false reg input).isSome
    simp only [resolveF, resolveF_true]
    split_ifs <;> simp_all
  · intro p reg' fl h
    rw [show fuel + 2 = fuel + 1 + 1 from rfl] at h
    simp only [resolveF, resolveF_true] at h
    split_ifs at h <;> simp_all

/-- Witness for C6 with an empty registry and input x: the flagged run prints
exactly the terminal message, because no command matched. -/
theorem C6_fallback_guard_witness :
    ((dispatchLoop ([] : List (Wrapper × WState))
        ((tokenize "x").headD "") (tokenize "x").tail).1.isSome ∧
      (["No additional help found."] : List String) = []) ∨
    (¬(dispatchLoop ([] : List (Wrapper × WState))
        ((tokenize "x").headD "") (tokenize "x").tail).1.isSome ∧
      (["No additional help found."] : List String)
        = ["No additional help found."]) :=
  (C6_fallback_guard 0 [] "x").2.1 ["No additional help found."] [] true
    (by rfl)

end MyLib
